import Mathlib

/-!
Verification of the Pascal VOC annotation parser (`effdet/data/parsers/parser_voc.py`).

The parser reads a split file of image identifiers, loads one XML annotation
record per image, builds parallel sequences (`img_ids`, `img_infos`, `anns`)
plus an identifier-to-index map, and normalizes per-image annotations into
usable / ignored box groups.  The definitions below are a shallow embedding of
that code: file reading and XML parsing are abstracted into a lookup function
`fs : String → Option XmlAnn` supplied by the configuration, Python dicts
become association lists with in-place-overwrite insertion, numpy arrays of
boxes become `List (List Int)`, and Python exceptions become `Except` /
`Option` results.
-/

/-- One `<object>` entry of an annotation XML file: class name, difficulty
flag (an integer, as in the file), and the four `bndbox` coordinates. -/
structure XmlObj where
  name : String
  difficult : Int
  xmin : Int
  ymin : Int
  xmax : Int
  ymax : Int
deriving Repr, DecidableEq

/-- A parsed annotation XML file: the image `size` (width/height) and the
list of `<object>` entries. -/
structure XmlAnn where
  width : Int
  height : Int
  objects : List XmlObj
deriving Repr, DecidableEq

/-- Configuration consumed once at construction (`VocParserCfg` in the code).
`split` holds the raw lines of the split file; `img_filename` and
`ann_filename` model the `%`-templates applied to an image id; `fs` models
reading and parsing the annotation file at a path (`none` = missing or
malformed file). -/
structure VocParserCfg where
  split : List String
  img_filename : String → String
  ann_filename : String → String
  fs : String → Option XmlAnn
  bbox_yxyx : Bool
  has_labels : Bool
  keep_difficult : Bool
  ignore_empty_gt : Bool
  min_img_size : Int
  classes : Option (List String)

/-- Per-image metadata stored in `img_infos`:
`dict(id=img_id, file_name=filename, width=width, height=height)`. -/
structure ImgInfo where
  id : String
  file_name : String
  width : Int
  height : Int
deriving Repr, DecidableEq

/-- A raw per-object annotation as stored in `anns`:
`dict(label=label, bbox=[x1, y1, x2, y2], difficult=difficult)`. -/
structure RawAnn where
  label : Nat
  x1 : Int
  y1 : Int
  x2 : Int
  y2 : Int
  difficult : Int
deriving Repr, DecidableEq

/-- The exceptions construction can raise: a missing/malformed annotation
file (Python `ET.parse` failure), or a class name absent from `cat_to_label`
(Python `KeyError(name)`, which carries the missing class name). -/
inductive LoadError where
  | formatError (path : String)
  | unknownCategory (name : String)
deriving Repr, DecidableEq

/-- The parser state (`VocParser`): configuration flags copied by
`__init__` plus the aggregate sequences built by `_load_annotations`. -/
structure VocParser where
  yxyx : Bool
  has_labels : Bool
  keep_difficult : Bool
  include_bboxes_ignore : Bool
  ignore_empty_gt : Bool
  min_img_size : Int
  correct_bbox : Int
  cat_ids : List Nat
  cat_to_label : List (String × Nat)
  img_ids : List String
  img_ids_invalid : List String
  img_infos : List ImgInfo
  img_id_to_idx : List (String × Nat)
  anns : List (List RawAnn)
deriving Repr, DecidableEq

/-- Python-dict insertion `d[k] = v` on an association list: overwrite the
first (in a real dict: only) binding of `k` in place, else append. -/
def dictInsert : List (String × Nat) → String → Nat → List (String × Nat)
  | [], k, v => [(k, v)]
  | (k0, v0) :: rest, k, v =>
    if k0 = k then (k, v) :: rest else (k0, v0) :: dictInsert rest k v

/-- Python-dict lookup `d.get(k)` on an association list. -/
def dictGet : List (String × Nat) → String → Option Nat
  | [], _ => none
  | (k0, v0) :: rest, k => if k0 = k then some v0 else dictGet rest k

/-- The fixed 20-class VOC default (`VocParser.DEFAULT_CLASSES`). -/
def DEFAULT_CLASSES : List String :=
  ["aeroplane", "bicycle", "bird", "boat", "bottle", "bus", "car", "cat", "chair",
   "cow", "diningtable", "dog", "horse", "motorbike", "person", "pottedplant",
   "sheep", "sofa", "train", "tvmonitor"]

/-- `{cat: i + 1 for i, cat in enumerate(classes)}`: category table mapping
each class name to its 1-based label id. -/
def buildCatToLabel (classes : List String) : List (String × Nat) :=
  classes.enum.foldl (fun d ic => dictInsert d ic.2 (ic.1 + 1)) []

/-- `img_id.strip("\n")`: remove leading and trailing newline characters. -/
def stripNL (s : String) : String :=
  String.mk (((s.toList.dropWhile (fun c => c = '\n')).reverse.dropWhile
    (fun c => c = '\n')).reverse)

/-- The parser state right after `__init__`'s field assignments, before
`_load_annotations` runs: empty sequences, `include_bboxes_ignore = False`,
`ignore_empty_gt = has_labels and cfg.ignore_empty_gt`, category table from
`cfg.classes or DEFAULT_CLASSES` (Python truthiness: `None` or an empty list
falls back to the default). -/
def initState (cfg : VocParserCfg) : VocParser :=
  let classes := match cfg.classes with
    | some (c :: cs) => c :: cs
    | _ => DEFAULT_CLASSES
  { yxyx := cfg.bbox_yxyx
    has_labels := cfg.has_labels
    keep_difficult := cfg.keep_difficult
    include_bboxes_ignore := false
    ignore_empty_gt := cfg.has_labels && cfg.ignore_empty_gt
    min_img_size := cfg.min_img_size
    correct_bbox := 1
    cat_ids := []
    cat_to_label := buildCatToLabel classes
    img_ids := []
    img_ids_invalid := []
    img_infos := []
    img_id_to_idx := []
    anns := [] }

/-- The inner object loop of `_load_annotations`: look each class name up in
`cat_to_label` (a missing name raises `KeyError(name)`, modelled as
`unknownCategory name`) and collect the raw annotations in order. -/
def parseObjs (cat : List (String × Nat)) : List XmlObj → Except LoadError (List RawAnn)
  | [] => .ok []
  | o :: os =>
    match dictGet cat o.name with
    | none => .error (.unknownCategory o.name)
    | some label =>
      match parseObjs cat os with
      | .error e => .error e
      | .ok rest =>
        .ok ({ label := label, x1 := o.xmin, y1 := o.ymin, x2 := o.xmax,
               y2 := o.ymax, difficult := o.difficult } :: rest)

/-- One iteration of the `for img_idx, img_id in enumerate(ids)` loop of
`_load_annotations`: strip the line, resolve paths, parse the annotation
file, skip the image silently when `min(width, height) < min_img_size`,
parse the objects, then either append to the main sequences (recording
`img_idx` — the enumeration index — in `img_id_to_idx`) or record the id in
`img_ids_invalid`. -/
def loadStep (cfg : VocParserCfg) (st : VocParser) (img_idx : Nat) (line : String) :
    Except LoadError VocParser :=
  match cfg.fs (cfg.ann_filename (stripNL line)) with
  | none => .error (.formatError (cfg.ann_filename (stripNL line)))
  | some x =>
    if min x.width x.height < st.min_img_size then
      .ok st
    else
      match parseObjs st.cat_to_label x.objects with
      | .error e => .error e
      | .ok anns =>
        if !st.ignore_empty_gt || !anns.isEmpty then
          .ok { st with
            anns := st.anns ++ [anns]
            img_infos := st.img_infos ++
              [{ id := stripNL line, file_name := cfg.img_filename (stripNL line),
                 width := x.width, height := x.height }]
            img_ids := st.img_ids ++ [stripNL line]
            img_id_to_idx := dictInsert st.img_id_to_idx (stripNL line) img_idx }
        else
          .ok { st with img_ids_invalid := st.img_ids_invalid ++ [stripNL line] }

/-- The split-file loop of `_load_annotations`, threading the enumeration
index; any per-image error aborts the whole load. -/
def loadFrom (cfg : VocParserCfg) : Nat → List String → VocParser → Except LoadError VocParser
  | _, [], st => .ok st
  | i, line :: rest, st =>
    match loadStep cfg st i line with
    | .error e => .error e
    | .ok st' => loadFrom cfg (i + 1) rest st'

/-- `VocParser.__init__`: build the initial state and run
`_load_annotations` over the split file. -/
def VocParser.init (cfg : VocParserCfg) : Except LoadError VocParser :=
  loadFrom cfg 0 cfg.split (initState cfg)

/-- The successfully constructed parser for a configuration known to load
without error (falls back to the pre-load state otherwise). -/
def initD (cfg : VocParserCfg) : VocParser :=
  (VocParser.init cfg).toOption.getD (initState cfg)

/-- `VocParser.merge`: `assert len(self.cat_ids) == len(other.cat_ids)`
(modelled as `none` on failure), then extend `img_ids`, `img_infos` and
`anns` with `other`'s, and re-insert each of `other`'s id→index pairs
shifted by the pre-merge length `this_size`. -/
def VocParser.merge (self other : VocParser) : Option VocParser :=
  let this_size := self.img_ids.length
  if self.cat_ids.length = other.cat_ids.length then
    some { self with
      img_ids := self.img_ids ++ other.img_ids
      img_infos := self.img_infos ++ other.img_infos
      anns := self.anns ++ other.anns
      img_id_to_idx := other.img_id_to_idx.foldl
        (fun d kv => dictInsert d kv.1 (kv.2 + this_size)) self.img_id_to_idx }
  else
    none

/-- The coordinate reordering of `_parse_ann_info`: `[y1, x1, y2, x2]` when
`yxyx` is configured, else the stored `[x1, y1, x2, y2]`. -/
def ordBox (p : VocParser) (a : RawAnn) : List Int :=
  if p.yxyx then [a.y1, a.x1, a.y2, a.x2] else [a.x1, a.y1, a.x2, a.y2]

/-- Whether `_parse_ann_info` routes an annotation to the ignore group:
degenerate (`w < 1 or h < 1`, computed on the stored pre-shift coordinates)
or difficult (nonzero flag) while difficult instances are not kept. -/
def isIgnored (p : VocParser) (a : RawAnn) : Bool :=
  (decide (a.x2 - a.x1 < 1) || decide (a.y2 - a.y1 < 1)) ||
    (a.difficult != 0 && !p.keep_difficult)

/-- The partitioning loop of `_parse_ann_info`: in input order, build
`(bboxes, labels, bboxes_ignore, labels_ignore)`. -/
def splitAnns (p : VocParser) :
    List RawAnn → List (List Int) × List Nat × List (List Int) × List Nat
  | [] => ([], [], [], [])
  | a :: rest =>
    let r := splitAnns p rest
    if isIgnored p a then
      (r.1, r.2.1, ordBox p a :: r.2.2.1, a.label :: r.2.2.2)
    else
      (ordBox p a :: r.1, a.label :: r.2.1, r.2.2.1, r.2.2.2)

/-- `np.array(bboxes, ndmin=2, dtype=np.float32) - 1`: the element-wise
minus-one shift applied when a box group is materialized. -/
def shiftAll (bs : List (List Int)) : List (List Int) :=
  bs.map (fun row => row.map (fun c => c - 1))

/-- The record returned by `get_ann_info` / `_parse_ann_info`: the `bbox`
and `cls` keys are always present; `bbox_ignore` / `cls_ignore` are present
(`some`) only when `include_bboxes_ignore` is set. -/
structure AnnResult where
  bbox : List (List Int)
  cls : List Nat
  bbox_ignore : Option (List (List Int))
  cls_ignore : Option (List Nat)
deriving Repr, DecidableEq

/-- `VocParser._parse_ann_info`: partition the raw annotations, materialize
the usable group (zero-row/zero-length arrays when empty, else the shifted
boxes and the labels), and the ignore group only when
`include_bboxes_ignore` is set. -/
def parseAnnInfo (p : VocParser) (ann_info : List RawAnn) : AnnResult :=
  let s := splitAnns p ann_info
  let usable := if s.1.isEmpty then (([] : List (List Int)), ([] : List Nat))
    else (shiftAll s.1, s.2.1)
  let ign :=
    if p.include_bboxes_ignore then
      if s.2.2.1.isEmpty then (some ([] : List (List Int)), some ([] : List Nat))
      else (some (shiftAll s.2.2.1), some s.2.2.2)
    else (none, none)
  { bbox := usable.1, cls := usable.2, bbox_ignore := ign.1, cls_ignore := ign.2 }

/-- `VocParser.get_ann_info(idx)`: normalize the raw annotation list stored
at a position (`none` when the position is out of range). -/
def getAnnInfo (p : VocParser) (idx : Nat) : Option AnnResult :=
  (p.anns.get? idx).map (parseAnnInfo p)

/-! Concrete configurations used to evaluate the embedded code on explicit
inputs.  Every one uses plain `id ++ ".jpg"` / `id ++ ".xml"` templates. -/

/-- An annotation file for a 50×400 image with no objects. -/
def annSmall : XmlAnn := { width := 50, height := 400, objects := [] }

/-- An annotation file for a 500×500 image with no objects. -/
def annBig : XmlAnn := { width := 500, height := 500, objects := [] }

/-- An annotation file for a 500×500 image with one ordinary `aclass`
object, box `[1, 1, 10, 10]`, not difficult. -/
def annOneObj : XmlAnn :=
  { width := 500, height := 500,
    objects := [{ name := "aclass", difficult := 0, xmin := 1, ymin := 1,
                  xmax := 10, ymax := 10 }] }

/-- An annotation file for a 500×500 image with one object whose class name
`zebra` is not in the category table. -/
def annZebra : XmlAnn :=
  { width := 500, height := 500,
    objects := [{ name := "zebra", difficult := 0, xmin := 1, ymin := 1,
                  xmax := 10, ymax := 10 }] }

/-- Split `["small", "big"]`, `min_img_size = 100`: the first image is
50×400 and is silently dropped, the second is 500×500 and kept. -/
def c1cfg : VocParserCfg :=
  { split := ["small", "big"]
    img_filename := fun id => id ++ ".jpg"
    ann_filename := fun id => id ++ ".xml"
    fs := fun path =>
      if path = "small.xml" then some annSmall
      else if path = "big.xml" then some annBig else none
    bbox_yxyx := false
    has_labels := true
    keep_difficult := false
    ignore_empty_gt := false
    min_img_size := 100
    classes := some ["aclass"] }

/-- An empty-split configuration with a one-class category table. -/
def c2cfgA : VocParserCfg :=
  { split := []
    img_filename := fun id => id ++ ".jpg"
    ann_filename := fun id => id ++ ".xml"
    fs := fun _ => none
    bbox_yxyx := false
    has_labels := true
    keep_difficult := false
    ignore_empty_gt := false
    min_img_size := 0
    classes := some ["aclass"] }

/-- An empty-split configuration with a three-class category table. -/
def c2cfgB : VocParserCfg :=
  { split := []
    img_filename := fun id => id ++ ".jpg"
    ann_filename := fun id => id ++ ".xml"
    fs := fun _ => none
    bbox_yxyx := false
    has_labels := true
    keep_difficult := false
    ignore_empty_gt := false
    min_img_size := 0
    classes := some ["aclass", "bclass", "cclass"] }

/-- Split `["empty", "full"]` with `ignore_empty_gt = True`: the first image
has no objects and is rejected, the second has one object and is kept. -/
def c6cfg : VocParserCfg :=
  { split := ["empty", "full"]
    img_filename := fun id => id ++ ".jpg"
    ann_filename := fun id => id ++ ".xml"
    fs := fun path =>
      if path = "empty.xml" then some annBig
      else if path = "full.xml" then some annOneObj else none
    bbox_yxyx := false
    has_labels := true
    keep_difficult := false
    ignore_empty_gt := true
    min_img_size := 0
    classes := some ["aclass"] }

/-- A one-image configuration (image `a1`, one object) used as the merge
target. -/
def c7cfgA : VocParserCfg :=
  { split := ["a1"]
    img_filename := fun id => id ++ ".jpg"
    ann_filename := fun id => id ++ ".xml"
    fs := fun path => if path = "a1.xml" then some annOneObj else none
    bbox_yxyx := false
    has_labels := true
    keep_difficult := false
    ignore_empty_gt := false
    min_img_size := 0
    classes := some ["aclass"] }

/-- A one-image configuration (image `b1`, one object) used as the merge
source. -/
def c7cfgB : VocParserCfg :=
  { split := ["b1"]
    img_filename := fun id => id ++ ".jpg"
    ann_filename := fun id => id ++ ".xml"
    fs := fun path => if path = "b1.xml" then some annOneObj else none
    bbox_yxyx := false
    has_labels := true
    keep_difficult := false
    ignore_empty_gt := false
    min_img_size := 0
    classes := some ["aclass"] }

/-- Split `["img1"]` where the only object's class name `zebra` is absent
from the category table `{"aclass": 1}`. -/
def c8cfg : VocParserCfg :=
  { split := ["img1"]
    img_filename := fun id => id ++ ".jpg"
    ann_filename := fun id => id ++ ".xml"
    fs := fun path => if path = "img1.xml" then some annZebra else none
    bbox_yxyx := false
    has_labels := true
    keep_difficult := false
    ignore_empty_gt := false
    min_img_size := 0
    classes := some ["aclass"] }

/-- A usable annotation: label 1, box `[3, 4, 10, 20]`, not difficult. -/
def a0 : RawAnn := { label := 1, x1 := 3, y1 := 4, x2 := 10, y2 := 20, difficult := 0 }

/-- A degenerate annotation (`x2 - x1 = 0`): label 1, box `[5, 4, 5, 20]`. -/
def adeg : RawAnn := { label := 1, x1 := 5, y1 := 4, x2 := 5, y2 := 20, difficult := 0 }

/-- The merged index of the two concrete one-image indexes. -/
def c7m : VocParser := ((initD c7cfgA).merge (initD c7cfgB)).getD (initD c7cfgA)

/-! Characterizations of the normalization loop. -/

/-- The partitioning loop is a filter/map: the usable side keeps the
non-ignored annotations, the ignore side the ignored ones, in order. -/
theorem splitAnns_eq (p : VocParser) (l : List RawAnn) :
    splitAnns p l =
      ((l.filter (fun a => !isIgnored p a)).map (ordBox p),
       (l.filter (fun a => !isIgnored p a)).map RawAnn.label,
       (l.filter (fun a => isIgnored p a)).map (ordBox p),
       (l.filter (fun a => isIgnored p a)).map RawAnn.label) := by
  induction l with
  | nil => rfl
  | cons a rest ih =>
    cases h : isIgnored p a <;> simp [splitAnns, h, ih]

/-- The usable box array is the shifted ordered boxes of the non-ignored
annotations (also when the group is empty). -/
theorem parseAnnInfo_bbox (p : VocParser) (l : List RawAnn) :
    (parseAnnInfo p l).bbox =
      shiftAll ((l.filter (fun a => !isIgnored p a)).map (ordBox p)) := by
  unfold parseAnnInfo
  rw [splitAnns_eq]
  by_cases h : ((l.filter (fun a => !isIgnored p a)).map (ordBox p)).isEmpty
  · simp only [h]
    rw [List.isEmpty_iff.mp h]
    rfl
  · simp only [h]
    rfl

/-- The usable label array is the labels of the non-ignored annotations. -/
theorem parseAnnInfo_cls (p : VocParser) (l : List RawAnn) :
    (parseAnnInfo p l).cls = (l.filter (fun a => !isIgnored p a)).map RawAnn.label := by
  unfold parseAnnInfo
  rw [splitAnns_eq]
  by_cases h : ((l.filter (fun a => !isIgnored p a)).map (ordBox p)).isEmpty
  · simp only [h]
    have h0 : l.filter (fun a => !isIgnored p a) = [] := by
      have := List.isEmpty_iff.mp h
      exact List.map_eq_nil_iff.mp this
    rw [h0]
    rfl
  · simp only [h]
    rfl

/-- With the ignore switch off, the result has no ignore keys. -/
theorem parseAnnInfo_ignore_none (p : VocParser) (l : List RawAnn)
    (h : p.include_bboxes_ignore = false) :
    (parseAnnInfo p l).bbox_ignore = none ∧ (parseAnnInfo p l).cls_ignore = none := by
  unfold parseAnnInfo
  rw [h]
  exact ⟨rfl, rfl⟩

/-- With the ignore switch on, the ignore keys are present and hold the
shifted ignored boxes and their labels (empty arrays when the group is
empty). -/
theorem parseAnnInfo_ignore_some (p : VocParser) (l : List RawAnn)
    (h : p.include_bboxes_ignore = true) :
    (parseAnnInfo p l).bbox_ignore =
      some (shiftAll ((l.filter (fun a => isIgnored p a)).map (ordBox p))) ∧
    (parseAnnInfo p l).cls_ignore =
      some ((l.filter (fun a => isIgnored p a)).map RawAnn.label) := by
  unfold parseAnnInfo
  rw [splitAnns_eq, h]
  by_cases he : ((l.filter (fun a => isIgnored p a)).map (ordBox p)).isEmpty
  · simp only [he]
    have h0 : l.filter (fun a => isIgnored p a) = [] := by
      have := List.isEmpty_iff.mp he
      exact List.map_eq_nil_iff.mp this
    rw [h0]
    exact ⟨rfl, rfl⟩
  · simp only [he]
    exact ⟨rfl, rfl⟩

/-- Every ordered box has exactly four coordinates. -/
theorem ordBox_length (p : VocParser) (a : RawAnn) : (ordBox p a).length = 4 := by
  unfold ordBox
  cases p.yxyx <;> rfl

/-! Claim C3. -/

/-- Claim C3: a stored annotation with `x2 - x1 >= 1`, `y2 - y1 >= 1` and a
zero difficulty flag appears in the usable group as exactly the once-shifted
box `[x1-1, y1-1, x2-1, y2-1]` (yx-swapped before the shift when `yxyx` is
configured). -/
theorem C3_usable_round_trip (p : VocParser) (anns : List RawAnn) (a : RawAnn)
    (ha : a ∈ anns) (hw : 1 ≤ a.x2 - a.x1) (hh : 1 ≤ a.y2 - a.y1)
    (hd : a.difficult = 0) :
    (if p.yxyx then [a.y1 - 1, a.x1 - 1, a.y2 - 1, a.x2 - 1]
     else [a.x1 - 1, a.y1 - 1, a.x2 - 1, a.y2 - 1]) ∈ (parseAnnInfo p anns).bbox := by
  have hk : isIgnored p a = false := by
    simp [isIgnored, hd]
    omega
  have hmem : a ∈ anns.filter (fun a => !isIgnored p a) :=
    List.mem_filter.mpr ⟨ha, by simp [hk]⟩
  have h2 : ordBox p a ∈ (anns.filter (fun a => !isIgnored p a)).map (ordBox p) :=
    List.mem_map_of_mem _ hmem
  have h3 : (ordBox p a).map (fun c => c - 1) ∈
      shiftAll ((anns.filter (fun a => !isIgnored p a)).map (ordBox p)) :=
    List.mem_map_of_mem _ h2
  have h4 : (if p.yxyx then [a.y1 - 1, a.x1 - 1, a.y2 - 1, a.x2 - 1]
      else [a.x1 - 1, a.y1 - 1, a.x2 - 1, a.y2 - 1]) =
      (ordBox p a).map (fun c => c - 1) := by
    unfold ordBox
    cases p.yxyx <;> simp
  rw [parseAnnInfo_bbox, h4]
  exact h3

/-! Claim C4. -/

/-- Claim C4: an annotation whose pre-shift box is degenerate
(`x2 - x1 < 1` or `y2 - y1 < 1`) is routed to the ignore group whatever its
difficulty flag and the `keep_difficult` setting, and consequently every box
in the usable group comes from an annotation with pre-shift width and height
at least 1. -/
theorem C4_degenerate_ignored (p : VocParser) (anns : List RawAnn) (a : RawAnn)
    (ha : a ∈ anns) (hdeg : a.x2 - a.x1 < 1 ∨ a.y2 - a.y1 < 1) :
    ordBox p a ∈ (splitAnns p anns).2.2.1 ∧
    ∀ b ∈ (parseAnnInfo p anns).bbox, ∃ a', a' ∈ anns ∧ 1 ≤ a'.x2 - a'.x1 ∧
      1 ≤ a'.y2 - a'.y1 ∧ b = (ordBox p a').map (fun c => c - 1) := by
  constructor
  · have hig : isIgnored p a = true := by
      unfold isIgnored
      rcases hdeg with h | h
      · simp [h]
      · simp [h]
    rw [splitAnns_eq]
    exact List.mem_map_of_mem _ (List.mem_filter.mpr ⟨ha, by simp [hig]⟩)
  · intro b hb
    rw [parseAnnInfo_bbox] at hb
    unfold shiftAll at hb
    rw [List.mem_map] at hb
    obtain ⟨row, hrow, hbeq⟩ := hb
    rw [List.mem_map] at hrow
    obtain ⟨a', ha', heq⟩ := hrow
    rw [List.mem_filter] at ha'
    obtain ⟨hmem, hni⟩ := ha'
    have hni' : isIgnored p a' = false := by
      cases h : isIgnored p a'
      · rfl
      · rw [h] at hni
        simp at hni
    have harith : ¬ a'.x2 - a'.x1 < 1 ∧ ¬ a'.y2 - a'.y1 < 1 := by
      unfold isIgnored at hni'
      simp at hni'
      obtain ⟨⟨h1, h2⟩, -⟩ := hni'
      exact ⟨by omega, by omega⟩
    refine ⟨a', hmem, by omega, by omega, ?_⟩
    rw [← hbeq, heq]

/-! Claim C9. -/

/-- Claim C9: the normalized record always carries the `bbox` and `cls`
keys; when the usable group is empty they are the zero-row 4-column array
and the zero-length label array, every usable row has 4 columns, and when
the ignore group is present (switch on) its arrays behave the same way. -/
theorem C9_empty_groups_materialized (p : VocParser) (anns : List RawAnn) :
    ((splitAnns p anns).1 = [] →
      (parseAnnInfo p anns).bbox = [] ∧ (parseAnnInfo p anns).cls = []) ∧
    (∀ row ∈ (parseAnnInfo p anns).bbox, row.length = 4) ∧
    (p.include_bboxes_ignore = true →
      ∃ bi ci, (parseAnnInfo p anns).bbox_ignore = some bi ∧
        (parseAnnInfo p anns).cls_ignore = some ci ∧
        ((splitAnns p anns).2.2.1 = [] → bi = [] ∧ ci = []) ∧
        (∀ row ∈ bi, row.length = 4)) := by
  refine ⟨?_, ?_, ?_⟩
  · intro h
    rw [splitAnns_eq] at h
    simp only at h
    have h0 : anns.filter (fun a => !isIgnored p a) = [] := List.map_eq_nil_iff.mp h
    rw [parseAnnInfo_bbox, parseAnnInfo_cls, h0]
    exact ⟨rfl, rfl⟩
  · intro row hrow
    rw [parseAnnInfo_bbox] at hrow
    unfold shiftAll at hrow
    rw [List.mem_map] at hrow
    obtain ⟨r0, hr0, hreq⟩ := hrow
    rw [List.mem_map] at hr0
    obtain ⟨a, _, haeq⟩ := hr0
    rw [← hreq, ← haeq]
    rw [List.length_map]
    exact ordBox_length p a
  · intro h
    obtain ⟨hb, hc⟩ := parseAnnInfo_ignore_some p anns h
    refine ⟨_, _, hb, hc, ?_, ?_⟩
    · intro he
      rw [splitAnns_eq] at he
      simp only at he
      have h0 : anns.filter (fun a => isIgnored p a) = [] := List.map_eq_nil_iff.mp he
      rw [h0]
      exact ⟨rfl, rfl⟩
    · intro row hrow
      unfold shiftAll at hrow
      rw [List.mem_map] at hrow
      obtain ⟨r0, hr0, hreq⟩ := hrow
      rw [List.mem_map] at hr0
      obtain ⟨a, _, haeq⟩ := hr0
      rw [← hreq, ← haeq]
      rw [List.length_map]
      exact ordBox_length p a

/-! Inversion of one loading step and preservation along the loop. -/

/-- A successful loading step is one of: silent size skip, append to the
main sequences, or record in the rejected list. -/
theorem loadStep_ok_inv (cfg : VocParserCfg) (st : VocParser) (i : Nat)
    (line : String) (st' : VocParser)
    (h : loadStep cfg st i line = .ok st') :
    ∃ x, cfg.fs (cfg.ann_filename (stripNL line)) = some x ∧
      ((min x.width x.height < st.min_img_size ∧ st' = st) ∨
       (¬ min x.width x.height < st.min_img_size ∧
        ∃ anns, parseObjs st.cat_to_label x.objects = .ok anns ∧
          (st' = { st with
              anns := st.anns ++ [anns]
              img_infos := st.img_infos ++
                [{ id := stripNL line, file_name := cfg.img_filename (stripNL line),
                   width := x.width, height := x.height }]
              img_ids := st.img_ids ++ [stripNL line]
              img_id_to_idx := dictInsert st.img_id_to_idx (stripNL line) i } ∨
           st' = { st with img_ids_invalid := st.img_ids_invalid ++ [stripNL line] }))) := by
  unfold loadStep at h
  split at h
  · simp at h
  next x hfs =>
    split at h
    next hsz =>
      injection h with h
      exact ⟨x, hfs, Or.inl ⟨hsz, h.symm⟩⟩
    next hsz =>
      split at h
      · simp at h
      next anns hpo =>
        split at h
        next hrt =>
          injection h with h
          exact ⟨x, hfs, Or.inr ⟨hsz, anns, hpo, Or.inl h.symm⟩⟩
        next hrt =>
          injection h with h
          exact ⟨x, hfs, Or.inr ⟨hsz, anns, hpo, Or.inr h.symm⟩⟩

/-- Any property of the parser state preserved by a successful step is
preserved by the whole loading loop. -/
theorem loadFrom_preserves (cfg : VocParserCfg) (P : VocParser → Prop)
    (hstep : ∀ st i line st', loadStep cfg st i line = .ok st' → P st → P st') :
    ∀ (ids : List String) (i : Nat) (st st' : VocParser),
      loadFrom cfg i ids st = .ok st' → P st → P st' := by
  intro ids
  induction ids with
  | nil =>
    intro i st st' h hP
    unfold loadFrom at h
    injection h with h
    rw [← h]
    exact hP
  | cons line rest ih =>
    intro i st st' h hP
    unfold loadFrom at h
    cases hs : loadStep cfg st i line with
    | error e =>
      rw [hs] at h
      simp at h
    | ok st1 =>
      rw [hs] at h
      exact ih _ _ _ h (hstep _ _ _ _ hs hP)

/-! Claim C5. -/

/-- Claim C5: every image retained in `img_infos` satisfies
`min(width, height) >= min_img_size`; every identifier in `img_ids` or
`img_ids_invalid` has an annotation passing the size check; and an image
whose annotation fails the size check appears in neither list. -/
theorem C5_small_images_dropped (cfg : VocParserCfg) (p : VocParser)
    (h : VocParser.init cfg = .ok p) :
    (∀ info ∈ p.img_infos, cfg.min_img_size ≤ min info.width info.height) ∧
    (∀ id ∈ p.img_ids ++ p.img_ids_invalid,
       ∃ x, cfg.fs (cfg.ann_filename id) = some x ∧
         cfg.min_img_size ≤ min x.width x.height) ∧
    (∀ id x, cfg.fs (cfg.ann_filename id) = some x →
       min x.width x.height < cfg.min_img_size →
       id ∉ p.img_ids ∧ id ∉ p.img_ids_invalid) := by
  have hP : p.min_img_size = cfg.min_img_size ∧
      (∀ info ∈ p.img_infos, cfg.min_img_size ≤ min info.width info.height) ∧
      (∀ id ∈ p.img_ids ++ p.img_ids_invalid,
        ∃ x, cfg.fs (cfg.ann_filename id) = some x ∧
          cfg.min_img_size ≤ min x.width x.height) := by
    refine loadFrom_preserves cfg (fun st => st.min_img_size = cfg.min_img_size ∧
      (∀ info ∈ st.img_infos, cfg.min_img_size ≤ min info.width info.height) ∧
      (∀ id ∈ st.img_ids ++ st.img_ids_invalid,
        ∃ x, cfg.fs (cfg.ann_filename id) = some x ∧
          cfg.min_img_size ≤ min x.width x.height))
      ?_ cfg.split 0 (initState cfg) p h ⟨rfl, by simp [initState], by simp [initState]⟩
    intro st i line st' hs hPst
    obtain ⟨x, hfs, hcase⟩ := loadStep_ok_inv cfg st i line st' hs
    obtain ⟨hmin, hinfos, hids⟩ := hPst
    rcases hcase with ⟨hsz, rfl⟩ | ⟨hsz, anns, hpo, rfl | rfl⟩
    · exact ⟨hmin, hinfos, hids⟩
    · rw [hmin] at hsz
      refine ⟨hmin, ?_, ?_⟩
      · intro info hinfo
        simp only [List.mem_append, List.mem_singleton] at hinfo
        rcases hinfo with hi | rfl
        · exact hinfos info hi
        · show cfg.min_img_size ≤ min x.width x.height
          omega
      · intro id hid
        simp only [List.mem_append, List.mem_singleton] at hid
        rcases hid with (hi | rfl) | hi
        · exact hids id (List.mem_append.mpr (Or.inl hi))
        · exact ⟨x, hfs, by omega⟩
        · exact hids id (List.mem_append.mpr (Or.inr hi))
    · rw [hmin] at hsz
      refine ⟨hmin, hinfos, ?_⟩
      intro id hid
      simp only [List.mem_append, List.mem_singleton] at hid
      rcases hid with hi | (hi | rfl)
      · exact hids id (List.mem_append.mpr (Or.inl hi))
      · exact hids id (List.mem_append.mpr (Or.inr hi))
      · exact ⟨x, hfs, by omega⟩
  obtain ⟨-, hinfos, hids⟩ := hP
  refine ⟨hinfos, hids, ?_⟩
  intro id x hx hlt
  constructor <;> intro hmem
  · obtain ⟨x', hx', hge⟩ := hids id (List.mem_append.mpr (Or.inl hmem))
    rw [hx] at hx'
    injection hx' with hx'
    rw [← hx'] at hge
    omega
  · obtain ⟨x', hx', hge⟩ := hids id (List.mem_append.mpr (Or.inr hmem))
    rw [hx] at hx'
    injection hx' with hx'
    rw [← hx'] at hge
    omega

/-! Claim C10. -/

/-- Claim C10: `include_bboxes_ignore` is hard-wired to `False` by
construction for every configuration, so every record `get_ann_info`
returns carries only the `bbox` and `cls` keys, never `bbox_ignore` or
`cls_ignore`. -/
theorem C10_ignore_switch_disabled (cfg : VocParserCfg) (p : VocParser)
    (h : VocParser.init cfg = .ok p) :
    p.include_bboxes_ignore = false ∧
    ∀ idx r, getAnnInfo p idx = some r →
      r.bbox_ignore = none ∧ r.cls_ignore = none := by
  have hinc : p.include_bboxes_ignore = false := by
    refine loadFrom_preserves cfg (fun st => st.include_bboxes_ignore = false)
      ?_ cfg.split 0 (initState cfg) p h rfl
    intro st i line st' hs hPst
    obtain ⟨x, hfs, hcase⟩ := loadStep_ok_inv cfg st i line st' hs
    rcases hcase with ⟨-, rfl⟩ | ⟨-, anns, -, rfl | rfl⟩ <;> exact hPst
  refine ⟨hinc, ?_⟩
  intro idx r hr
  unfold getAnnInfo at hr
  cases hg : p.anns.get? idx with
  | none =>
    rw [hg] at hr
    simp at hr
  | some l =>
    rw [hg] at hr
    rw [Option.map_some'] at hr
    injection hr with hr
    rw [← hr]
    exact parseAnnInfo_ignore_none p l hinc

/-! Dictionary lemmas for the merge mapping. -/

/-- Looking up the key just inserted yields the inserted value. -/
theorem dictGet_insert_self (d : List (String × Nat)) (k : String) (v : Nat) :
    dictGet (dictInsert d k v) k = some v := by
  induction d with
  | nil => simp [dictInsert, dictGet]
  | cons kv rest ih =>
    by_cases hk : kv.1 = k
    · simp [dictInsert, hk, dictGet]
    · simp [dictInsert, hk, dictGet, ih]

/-- Inserting a different key leaves a lookup unchanged. -/
theorem dictGet_insert_ne (d : List (String × Nat)) (k' k : String) (v : Nat)
    (h : k' ≠ k) : dictGet (dictInsert d k' v) k = dictGet d k := by
  induction d with
  | nil => simp [dictInsert, dictGet, h]
  | cons kv rest ih =>
    by_cases hk : kv.1 = k'
    · simp [dictInsert, hk, dictGet, h]
    · simp only [dictInsert, hk, if_false]
      by_cases hk2 : kv.1 = k
      · simp [dictGet, hk2]
      · simp [dictGet, hk2, ih]

/-- Folding shifted insertions over pairs whose keys avoid `k` leaves the
lookup of `k` unchanged. -/
theorem dictGet_foldl_insert_not_mem (n : Nat) (l : List (String × Nat)) :
    ∀ (d : List (String × Nat)) (k : String), k ∉ l.map Prod.fst →
      dictGet (l.foldl (fun d kv => dictInsert d kv.1 (kv.2 + n)) d) k = dictGet d k := by
  induction l with
  | nil => intro d k _; rfl
  | cons kv rest ih =>
    intro d k hk
    simp only [List.map_cons, List.mem_cons] at hk
    push_neg at hk
    rw [List.foldl_cons]
    rw [ih _ k hk.2]
    exact dictGet_insert_ne d kv.1 k (kv.2 + n) (fun he => hk.1 he.symm)

/-- Folding shifted insertions over an association list with distinct keys:
every pair of the list is found, shifted, in the result. -/
theorem dictGet_foldl_insert_mem (n : Nat) (l : List (String × Nat)) :
    ∀ (d : List (String × Nat)) (k : String) (v : Nat),
      (l.map Prod.fst).Nodup → (k, v) ∈ l →
      dictGet (l.foldl (fun d kv => dictInsert d kv.1 (kv.2 + n)) d) k = some (v + n) := by
  induction l with
  | nil => intro d k v _ hmem; simp at hmem
  | cons kv rest ih =>
    intro d k v hnd hmem
    rw [List.map_cons, List.nodup_cons] at hnd
    rw [List.foldl_cons]
    rcases List.mem_cons.mp hmem with heq | hmem'
    · have hk : kv.1 = k := by rw [← heq]
      have hv : kv.2 = v := by rw [← heq]
      rw [dictGet_foldl_insert_not_mem n rest _ k (by rw [← hk]; exact hnd.1)]
      rw [hk, hv]
      exact dictGet_insert_self d k (v + n)
    · exact ih _ k v hnd.2 hmem'

/-- A successful lookup means the pair occurs in the association list. -/
theorem dictGet_mem (l : List (String × Nat)) (k : String) (v : Nat)
    (h : dictGet l k = some v) : (k, v) ∈ l := by
  induction l with
  | nil => simp [dictGet] at h
  | cons kv rest ih =>
    obtain ⟨k0, v0⟩ := kv
    by_cases hk : k0 = k
    · simp only [dictGet, hk, if_true] at h
      injection h with h
      rw [List.mem_cons]
      left
      rw [hk, h]
    · simp only [dictGet, hk, if_false] at h
      exact List.mem_cons.mpr (Or.inr (ih h))

/-! Claim C7. -/

/-- Claim C7: after a successful merge the identifier count is the sum of
the two pre-merge counts, and every identifier from the merge source is
mapped to its source offset shifted by the target's pre-merge length (for a
source whose mapping, like every Python dict, has distinct keys). -/
theorem C7_merge_offsets (a b m : VocParser) (hm : a.merge b = some m)
    (hnd : (b.img_id_to_idx.map Prod.fst).Nodup) :
    m.img_ids.length = a.img_ids.length + b.img_ids.length ∧
    ∀ id idx, dictGet b.img_id_to_idx id = some idx →
      dictGet m.img_id_to_idx id = some (a.img_ids.length + idx) := by
  unfold VocParser.merge at hm
  split at hm
  · injection hm with hm
    rw [← hm]
    refine ⟨List.length_append _ _, ?_⟩
    intro id idx hidx
    have := dictGet_foldl_insert_mem a.img_ids.length b.img_id_to_idx
      a.img_id_to_idx id idx hnd (dictGet_mem _ _ _ hidx)
    rw [this, Nat.add_comm]
  · simp at hm

/-! Claim C8. -/

/-- An `unknownCategory` failure of the object loop names a class name that
belongs to one of the objects and is absent from the category table. -/
theorem parseObjs_error_name (cat : List (String × Nat)) (objs : List XmlObj)
    (name : String)
    (h : parseObjs cat objs = .error (.unknownCategory name)) :
    dictGet cat name = none ∧ ∃ o, o ∈ objs ∧ o.name = name := by
  induction objs with
  | nil => simp [parseObjs] at h
  | cons o os ih =>
    unfold parseObjs at h
    cases hg : dictGet cat o.name with
    | none =>
      rw [hg] at h
      injection h with h
      injection h with h
      refine ⟨by rw [← h]; exact hg, o, List.mem_cons_self o os, h⟩
    | some label =>
      rw [hg] at h
      cases hp : parseObjs cat os with
      | error e =>
        rw [hp] at h
        injection h with h
        rw [h] at hp
        obtain ⟨h1, o', ho', hn⟩ := ih hp
        exact ⟨h1, o', List.mem_cons.mpr (Or.inr ho'), hn⟩
      | ok rest =>
        rw [hp] at h
        simp at h

/-- Claim C8 (amended): an object whose class name is absent from the
category table makes the whole load abort with `unknownCategory`, and the
error carries an unknown class name of that image's annotation — not the
image identifier. -/
theorem C8_unknown_category_aborts (cfg : VocParserCfg) (st : VocParser)
    (i : Nat) (line : String) (rest : List String) (x : XmlAnn) (name : String)
    (hfs : cfg.fs (cfg.ann_filename (stripNL line)) = some x)
    (hsz : ¬ min x.width x.height < st.min_img_size)
    (hpo : parseObjs st.cat_to_label x.objects = .error (.unknownCategory name)) :
    loadFrom cfg i (line :: rest) st = .error (.unknownCategory name) ∧
    dictGet st.cat_to_label name = none ∧
    ∃ o, o ∈ x.objects ∧ o.name = name := by
  obtain ⟨h1, h2⟩ := parseObjs_error_name st.cat_to_label x.objects name hpo
  refine ⟨?_, h1, h2⟩
  unfold loadFrom loadStep
  simp [hfs, hsz, hpo]

/-- Claim C1 (code bug): on `c1cfg` the first split entry is skipped for
small size, and the retained image `big` — stored at position 0 of the
length-1 `img_ids` — is mapped to 1 by `img_id_to_idx`, because the code
records the split-file enumeration index, not the position. -/
theorem C1_enumeration_index_bug :
    VocParser.init c1cfg = .ok (initD c1cfg) ∧
    (initD c1cfg).img_ids = ["big"] ∧
    dictGet (initD c1cfg).img_id_to_idx "big" = some 1 ∧
    ¬ 1 < (initD c1cfg).img_ids.length :=
  ⟨rfl, rfl, rfl, by decide⟩

/-- Claim C2 (code bug): merging two constructed indexes whose category
tables have sizes 1 and 3 succeeds, because the merge assertion compares
`cat_ids`, which construction leaves empty in both indexes. -/
theorem C2_category_check_vacuous :
    VocParser.init c2cfgA = .ok (initD c2cfgA) ∧
    VocParser.init c2cfgB = .ok (initD c2cfgB) ∧
    (initD c2cfgA).cat_to_label.length = 1 ∧
    (initD c2cfgB).cat_to_label.length = 3 ∧
    (initD c2cfgA).cat_ids = [] ∧ (initD c2cfgB).cat_ids = [] ∧
    ((initD c2cfgA).merge (initD c2cfgB)).isSome = true :=
  ⟨rfl, rfl, rfl, rfl, rfl, rfl, rfl⟩

/-- Claim C6 (code bug): on `c6cfg` the first split entry is rejected for
empty ground truth, and the kept image `full` — stored at position 0 — is
mapped by `img_id_to_idx` to 1, which is not even a valid position: the
code records the split-file enumeration index, not the position. -/
theorem C6_enumeration_index_bug :
    VocParser.init c6cfg = .ok (initD c6cfg) ∧
    (initD c6cfg).img_ids = ["full"] ∧
    (initD c6cfg).img_ids_invalid = ["empty"] ∧
    dictGet (initD c6cfg).img_id_to_idx "full" = some 1 ∧
    (initD c6cfg).img_ids.get? 1 = none :=
  ⟨rfl, rfl, rfl, rfl, rfl⟩

/-- Claim C8 counterexample: on `c8cfg` (image `img1` with unknown class
name `zebra`) the load fails with an error whose payload is the class name
`zebra`, which is not the image identifier `img1`. -/
theorem C8_counterexample :
    VocParser.init c8cfg = .error (.unknownCategory "zebra") ∧ "zebra" ≠ "img1" :=
  ⟨rfl, by decide⟩

/-- Witness for claim C3 at a concrete parser and annotation. -/
theorem C3_witness :
    a0 ∈ [a0] ∧ 1 ≤ a0.x2 - a0.x1 ∧ 1 ≤ a0.y2 - a0.y1 ∧ a0.difficult = 0 ∧
    (if (initD c7cfgA).yxyx then [a0.y1 - 1, a0.x1 - 1, a0.y2 - 1, a0.x2 - 1]
     else [a0.x1 - 1, a0.y1 - 1, a0.x2 - 1, a0.y2 - 1]) ∈
      (parseAnnInfo (initD c7cfgA) [a0]).bbox :=
  ⟨by decide, by decide, by decide, rfl,
   C3_usable_round_trip (initD c7cfgA) [a0] a0 (by decide) (by decide) (by decide) rfl⟩

/-- Witness for claim C4 at a concrete parser and a degenerate annotation. -/
theorem C4_witness :
    adeg ∈ [adeg, a0] ∧ (adeg.x2 - adeg.x1 < 1 ∨ adeg.y2 - adeg.y1 < 1) ∧
    (ordBox (initD c7cfgA) adeg ∈ (splitAnns (initD c7cfgA) [adeg, a0]).2.2.1 ∧
     ∀ b ∈ (parseAnnInfo (initD c7cfgA) [adeg, a0]).bbox, ∃ a', a' ∈ [adeg, a0] ∧
       1 ≤ a'.x2 - a'.x1 ∧ 1 ≤ a'.y2 - a'.y1 ∧
       b = (ordBox (initD c7cfgA) a').map (fun c => c - 1)) :=
  ⟨by decide, by decide,
   C4_degenerate_ignored (initD c7cfgA) [adeg, a0] adeg (by decide) (by decide)⟩

/-- Witness for claim C5 at the concrete configuration `c1cfg`. -/
theorem C5_witness :
    (∀ info ∈ (initD c1cfg).img_infos,
       c1cfg.min_img_size ≤ min info.width info.height) ∧
    (∀ id ∈ (initD c1cfg).img_ids ++ (initD c1cfg).img_ids_invalid,
       ∃ x, c1cfg.fs (c1cfg.ann_filename id) = some x ∧
         c1cfg.min_img_size ≤ min x.width x.height) ∧
    (∀ id x, c1cfg.fs (c1cfg.ann_filename id) = some x →
       min x.width x.height < c1cfg.min_img_size →
       id ∉ (initD c1cfg).img_ids ∧ id ∉ (initD c1cfg).img_ids_invalid) :=
  C5_small_images_dropped c1cfg (initD c1cfg) rfl

/-- Witness for claim C7 at two concrete one-image indexes. -/
theorem C7_witness :
    c7m.img_ids.length = (initD c7cfgA).img_ids.length + (initD c7cfgB).img_ids.length ∧
    ∀ id idx, dictGet (initD c7cfgB).img_id_to_idx id = some idx →
      dictGet c7m.img_id_to_idx id = some ((initD c7cfgA).img_ids.length + idx) :=
  C7_merge_offsets (initD c7cfgA) (initD c7cfgB) c7m rfl (by decide)

/-- Witness for claim C8 (amended) at the concrete configuration `c8cfg`. -/
theorem C8_witness :
    loadFrom c8cfg 0 ["img1"] (initState c8cfg) = .error (.unknownCategory "zebra") ∧
    dictGet (initState c8cfg).cat_to_label "zebra" = none ∧
    ∃ o, o ∈ annZebra.objects ∧ o.name = "zebra" :=
  C8_unknown_category_aborts c8cfg (initState c8cfg) 0 "img1" [] annZebra "zebra"
    rfl (by decide) rfl

/-- Witness for claim C10 at the concrete configuration `c1cfg`. -/
theorem C10_witness :
    (initD c1cfg).include_bboxes_ignore = false ∧
    ∀ idx r, getAnnInfo (initD c1cfg) idx = some r →
      r.bbox_ignore = none ∧ r.cls_ignore = none :=
  C10_ignore_switch_disabled c1cfg (initD c1cfg) rfl
